import Mathlib

/-!
# Verification of the git-codereview branch pending-state engine

Shallow embedding, in Lean 4, of the core logic of the git-codereview tool:

* the branch pending-state computation (`(*Branch).loadPending` in branch.go),
* the batched Gerrit metadata client (`readGerritChanges`,
  `readGerritChangesBatch`, `(*Branch).GerritChanges` in api.go / branch.go),
* the sync-branch merge workflow (`cmdSyncBranch`, `syncBranchContinue`,
  `writeSyncBranchStatus` in sync.go).

External collaborators (the git binary, the filesystem, the Gerrit HTTP
server) are modelled as oracle fields of an environment record: each field
records the answer the collaborator would give to the one query the source
code makes of it.  Side effects are modelled as an explicit trace of
`Effect` values; `dief` terminates execution, so a trace ends at its first
`.die` entry.
-/

namespace GitCodereview

/-! ## Utility functions (review.go) -/

/-- The source helper `lines`: splits on newline and removes the trailing
empty string that `strings.Split` leaves after a final newline. -/
def lines (text : String) : List String :=
  let out := text.splitOn "\n"
  match out.getLast? with
  | some "" => out.dropLast
  | _ => out

/-! ## Branch State Builder (branch.go) -/

/-- One record of the batched `git log --topo-order` query issued by
`loadPending`: the nine `%x00`-separated fields of one commit, with the
`%P` parent field already split by `strings.Fields`.  Records arrive in
reverse-topological order (children before parents). -/
structure LogRecord where
  hash : String
  shortHash : String
  parents : List String
  tree : String
  message : String
  subject : String
  authorName : String
  authorEmail : String
  authorDate : String
deriving Repr, DecidableEq

/-- The `Commit` struct of branch.go (the fields used by the pending
engine; the mutable per-command caches `g`, `gerr`, `committed` are not
part of the value). -/
structure Commit where
  hash : String
  shortHash : String
  parent : String
  parents : List String
  tree : String
  message : String
  subject : String
  changeID : String
  authorName : String
  authorEmail : String
  authorDate : String
deriving Repr, DecidableEq

/-- Construction of the `Commit` literal inside the `loadPending` loop:
all nine log fields are copied, `Parent` is set to `Parents[0]` when the
parent list is nonempty, and `ChangeID` is not yet extracted. -/
def commitOfRecord (r : LogRecord) : Commit :=
  { hash := r.hash
    shortHash := r.shortHash
    parent := match r.parents with | [] => "" | p :: _ => p
    parents := r.parents
    tree := r.tree
    message := r.message
    subject := r.subject
    changeID := ""
    authorName := r.authorName
    authorEmail := r.authorEmail
    authorDate := r.authorDate }

/-- The Change-Id extraction loop of `loadPending`: scan every line of the
message and keep the suffix of the last line starting with the marker
"Change-Id: " (11 bytes), so a quoted inner message cannot win. -/
def extractChangeID (msg : String) : String :=
  (lines msg).foldl
    (fun id line => if line.startsWith "Change-Id: " then line.drop 11 else id) ""

/-- A commit as appended on the non-merge path of the loop: the literal
plus the extracted Change-Id. -/
def pendingCommitOfRecord (r : LogRecord) : Commit :=
  { commitOfRecord r with changeID := extractChangeID r.message }

/-- The labelled `Log:` loop of `loadPending`.  `reachable p` models
whether `git branch -a --contains p` lists ` remotes/<origin>` (parent `p`
already reachable from the upstream reference).  For a multi-parent
(merge) record, the first reachable parent ends the traversal: the merge
commit is appended (without Change-Id extraction, as in the source) and
that parent becomes the branchpoint.  Otherwise the commit is appended
with its Change-Id and the branchpoint becomes its first parent. -/
def loadPendingGo (reachable : String → Bool) :
    List LogRecord → List Commit → String → List Commit × String
  | [], pending, bp => (pending, bp)
  | r :: rest, pending, _ =>
    if r.parents.length > 1 then
      match r.parents.find? reachable with
      | some p => (pending ++ [commitOfRecord r], p)
      | none =>
        loadPendingGo reachable rest (pending ++ [pendingCommitOfRecord r])
          (commitOfRecord r).parent
    else
      loadPendingGo reachable rest (pending ++ [pendingCommitOfRecord r])
        (commitOfRecord r).parent

/-- Environment of one `loadPending` call: the answers of the git
collaborator.  `headHash` is `gitHash("HEAD")`, `detached` is
`b.DetachedHead()`, `log` is the record list of the batched
`git log <origin>..<branch>` query (empty when nothing is pending), and
`reachableFromOrigin` answers the `git branch -a --contains` query. -/
structure PendingEnv where
  headHash : String
  detached : Bool
  log : List LogRecord
  reachableFromOrigin : String → Bool

/-- The memoized fields computed by `loadPending`. -/
structure PendingResult where
  pending : List Commit
  branchpoint : String
  commitsAhead : Nat
deriving Repr, DecidableEq

/-- `(*Branch).loadPending`: detached head or an empty log short-circuits
with no pending commits; the deferred fixup replaces an empty branchpoint
by the current commit (`gitHash("HEAD")`). -/
def loadPending (env : PendingEnv) : PendingResult :=
  if env.detached then
    { pending := [], branchpoint := env.headHash, commitsAhead := 0 }
  else if env.log.isEmpty then
    { pending := [], branchpoint := env.headHash, commitsAhead := 0 }
  else
    let (p, bp) := loadPendingGo env.reachableFromOrigin env.log [] ""
    { pending := p
      branchpoint := if bp = "" then env.headHash else bp
      commitsAhead := p.length }

/-! ## Review Metadata Client (api.go, branch.go) -/

/-- The fields of the Gerrit `ChangeInfo` JSON struct used by the pending
engine (api.go `GerritChange`; JSON fields not read by the core are
omitted). -/
structure GerritChange where
  id : String
  changeId : String
  subject : String
  status : String
  number : Nat
  currentRevision : String
  unresolvedCommentCount : Nat
deriving Repr, DecidableEq

/-- The decoded body a single `gerritAPI` call can produce for a
`/a/changes/?q=...` query: a transport/HTTP/header/JSON failure collapsed
to its message, a flat result array (shape served for a single `q=`
clause) or an array of result arrays (shape served for several). -/
inductive WireResp where
  | fail (msg : String)
  | single (row : List GerritChange)
  | multi (rows : List (List GerritChange))
deriving Repr, DecidableEq

/-- The value sent on a `readGerritChangesBatch` result channel. -/
structure GerritChangeResult where
  c : List (List GerritChange)
  err : Option String
deriving Repr, DecidableEq

/-- `readGerritChangesBatch(query, n, ch)` for one group of `n` clauses.
For `n == 1` the slot `c[0]` is appended before the call and the flat
response is decoded into it (normalizing to the array-of-arrays shape);
a response of the other shape is a JSON decode error and leaves the slot
nil.  The count check `len(c) != n` fires only when the call itself
succeeded. -/
def readGerritChangesBatch (resp : WireResp) (n : Nat) : GerritChangeResult :=
  if n = 1 then
    match resp with
    | .fail e => { c := [[]], err := some e }
    | .single row =>
      if ([row] : List (List GerritChange)).length ≠ n then
        { c := [row], err := some "gerrit result count mismatch" }
      else
        { c := [row], err := none }
    | .multi _ => { c := [[]], err := some "malformed json response" }
  else
    match resp with
    | .fail e => { c := [], err := some e }
    | .single _ => { c := [], err := some "malformed json response" }
    | .multi rows =>
      if rows.length ≠ n then
        { c := rows, err := some "gerrit result count mismatch" }
      else
        { c := rows, err := none }

/-- The chunking loop of `readGerritChanges`: while clauses remain, slice
off the first `min(10, len)` of them (the Gerrit server caps `q=`
parameters at 10 per request). -/
def chunk10 (l : List String) : List (List String) :=
  if h : l = [] then [] else l.take 10 :: chunk10 (l.drop 10)
termination_by l.length
decreasing_by
  have hp : 0 < l.length := List.length_pos.mpr h
  simp only [List.length_drop]
  omega

/-- The result-collection loop of `readGerritChanges`: receive each
group result in spawn order; the first group error makes the whole call
return `nil, err`, discarding every already-received group result;
otherwise concatenate. -/
def mergeGerritResults : List GerritChangeResult → Except String (List (List GerritChange))
  | [] => .ok []
  | r :: rest =>
    match r.err with
    | some e => .error e
    | none =>
      match mergeGerritResults rest with
      | .error e => .error e
      | .ok cs => .ok (r.c ++ cs)

/-- `readGerritChanges(query)`: the ordered `q=` clause list of the query
string (as recovered by `url.ParseQuery`) is partitioned into groups of
at most 10; one `readGerritChangesBatch` goroutine is issued per group
(`server` is the oracle for the one HTTP response each group request
gets); the result channels are drained in spawn order. -/
def readGerritChanges (server : List String → WireResp) (clauses : List String) :
    Except String (List (List GerritChange)) :=
  mergeGerritResults
    ((chunk10 clauses).map (fun g => readGerritChangesBatch (server g) g.length))

/-- Go `url.QueryEscape` on one ASCII character (the change identifiers
built by `fullChangeID` are ASCII): alphanumerics and `-_.~` kept, space
becomes `+`, anything else percent-encoded with uppercase hex. -/
def queryEscapeChar (c : Char) : String :=
  if c.isAlphanum ∨ c = '-' ∨ c = '_' ∨ c = '.' ∨ c = '~' then String.singleton c
  else if c = ' ' then "+"
  else
    let n := c.toNat
    let hex := fun (d : Nat) =>
      if d < 10 then Char.ofNat (48 + d) else Char.ofNat (55 + d)
    String.mk ['%', hex (n / 16 % 16), hex (n % 16)]

/-- Go `url.QueryEscape` over an ASCII string. -/
def queryEscape (s : String) : String :=
  String.join (s.data.map queryEscapeChar)

/-- `strings.HasSuffix(id, "~")` for the one-character suffix `~`: the
identifier's last character is the separator. -/
def endsInTilde (s : String) : Bool := s.data.getLast? = some '~'

/-- One `q=` clause built by the loop of `(*Branch).GerritChanges`: an
identifier ending in `~` is the `fullChangeID` of a commit with no
Change-Id trailer and gets the sentinel clause `is:closed+is:open`
(which can match no change) instead of being omitted; any other
identifier gets `change:<escaped id>`. -/
def changeClause (id : String) : String :=
  if endsInTilde id then "is:closed+is:open" else "change:" ++ queryEscape id

/-- `(*Branch).GerritChanges(ids)`: build one clause per identifier (the
wire form joins them as `q=c1&q=c2&...`, which `url.ParseQuery` in
`readGerritChanges` recovers as the same ordered list); an empty built
query — possible only for an empty identifier list, since both branches
of the loop append a nonempty clause — is the error "no changes found".
The `o=` options do not affect grouping and are left to the server
oracle. -/
def GerritChanges (server : List String → WireResp) (ids : List String) :
    Except String (List (List GerritChange)) :=
  if ids.isEmpty then .error "no changes found"
  else readGerritChanges server (ids.map changeClause)

/-- A Gerrit server oracle that behaves: given the row function `row`
describing the per-clause query results, a one-clause request is answered
in the flat shape and a multi-clause request in the nested shape. -/
def goodServer (row : String → List GerritChange) (group : List String) : WireResp :=
  match group with
  | [c] => .single (row c)
  | _ => .multi (group.map row)

/-- A server that answers any multi-clause group correctly but fails the
single-clause group with a transport error. -/
def failOnSingletonServer (row : String → List GerritChange) (group : List String) :
    WireResp :=
  match group with
  | [_] => .fail "timeout"
  | _ => .multi (group.map row)

/-- A sample per-clause server answer used by concrete instances. -/
def sampleChange (c : String) : GerritChange :=
  { id := c, changeId := c, subject := "s", status := "NEW", number := 1,
    currentRevision := "r", unresolvedCommentCount := 0 }

/-! ## Merge State Machine (sync.go) -/

/-- The persisted `syncBranchStatus` JSON document
(`.git/codereview-sync-branch-status`). -/
structure SyncBranchStatus where
  Local : String
  Parent : String
  Branch : String
  ParentHash : String
  BranchHash : String
  Conflicts : List String
deriving Repr, DecidableEq

/-- The observable actions of the sync-branch workflow, in program order.
`dief` exits the process, so `.die` is always the last entry of a trace.
Read-only actions (status queries, stderr prints, the final `cmdPending`
display) produce no entry. -/
inductive Effect where
  | die (msg : String)
  | configAdvice
  | gitPull
  | gitReset (target : String)
  | gitFetch (branch : String)
  | writeStatus (st : SyncBranchStatus)
  | gitResetHard (target : String)
  | gitMerge (target : String)
  | checkoutCfg (rev : String)
  | gitCommit (msg : String)
  | gitCommitAmend (msg : String)
  | removeStatusFile
deriving Repr, DecidableEq

/-- Whether a trace died (`dief` only ever terminates a trace). -/
def diedTrace (t : List Effect) : Bool :=
  t.any (fun e => match e with | .die _ => true | _ => false)

/-- The flag string passed to `syncBranchContinue`: `""`,
`" -continue"` (`syncBranchContinueFlag`) or `" -merge-back-to-parent"`
(`syncBranchMergeBackFlag`). -/
inductive SyncFlag where
  | plain
  | cont
  | mergeBack
deriving Repr, DecidableEq

/-- The flag text interpolated into `cannot sync-branch%s:` messages. -/
def SyncFlag.text : SyncFlag → String
  | .plain => ""
  | .cont => " -continue"
  | .mergeBack => " -merge-back-to-parent"

/-- Environment of one sync-branch invocation: each field is the answer
the git collaborator or the filesystem would give to the corresponding
query made by the source code (the environment is an oracle; the commands
the workflow itself runs are recorded in the trace instead). -/
structure SyncEnv where
  /-- `config()["parent-branch"]` (empty when the key is absent). -/
  cfgParentBranch : String
  /-- `config()["branch"]` (empty when the key is absent). -/
  cfgBranch : String
  /-- `CurrentBranch().Name`; `"HEAD"` in detached-head state. -/
  currentName : String
  /-- `b.OriginBranch()` of the current branch (empty when unknown). -/
  originBranch : String
  /-- `len(b.Pending())` at entry. -/
  pendingCount : Nat
  /-- whether the status file exists (`os.Stat(syncBranchStatusFile())`). -/
  statusFileExists : Bool
  /-- the parsed contents `readSyncBranchStatus()` would return. -/
  savedStatus : SyncBranchStatus
  /-- `git rev-parse MERGE_HEAD`: the in-progress merge source, if any. -/
  mergeHead : Option String
  /-- `HasStagedChanges()`. -/
  hasStaged : Bool
  /-- `HasUnstagedChanges()`. -/
  hasUnstaged : Bool
  /-- `gitHash("HEAD")`. -/
  headHash : String
  /-- `git rev-parse origin/<name>` (`none` when unresolvable). -/
  originHash : String → Option String
  /-- whether `git config --local advice.statusHints` errors (key unset). -/
  adviceUnset : Bool
  /-- `haveGerrit()`. -/
  haveGerrit : Bool
  /-- `len(b.Pending())` re-read after the pull inside `cmdSync`. -/
  pendingAfterPull : Nat
  /-- `b.Submitted(id)` after the pull, for the remembered Change-Id. -/
  submittedAfterPull : Bool
  /-- `b.Branchpoint()` after the pull (target of the rollback reset). -/
  branchpointAfterPull : String
  /-- output of `git log origin/<branch>..origin/<parent>` (the
  commits on the parent not yet folded into the branch; empty if none). -/
  logParentNotInBranch : String
  /-- output of `git log HEAD^1..HEAD^2` (the merge list text). -/
  mergeList : String
  /-- whether `git merge --no-ff` reports an error. -/
  mergeFails : Bool
  /-- the unmerged paths parsed from `git status -b --porcelain` after a
  failed merge (empty means only codereview.cfg was the problem). -/
  mergeConflicts : List String
  /-- whether the retry `git commit -m "TEMPORARY MERGE MESSAGE"` fails. -/
  cfgCommitFails : Bool

/-- `checkStaged` / `checkUnstaged` messages (remediation lines elided). -/
def stagedMsg (cmd : String) : String := "cannot " ++ cmd ++ ": staged changes exist"

/-- `checkUnstaged` message (remediation lines elided). -/
def unstagedMsg (cmd : String) : String := "cannot " ++ cmd ++ ": unstaged changes exist"

/-- `gitHash` failure message. -/
def cannotResolveMsg (expr : String) : String := "cannot resolve " ++ expr

/-- `prefixFor(branch)` from sync.go. -/
def prefixFor (branch : String) : String :=
  if branch.startsWith "dev." ∨ branch.startsWith "release-branch." then
    "[" ++ branch ++ "] "
  else ""

/-- `cmdSync(nil)` as invoked by `cmdSyncBranch`: check the origin
branch, optionally silence the status advice, refuse staged or unstaged
changes, pull and rebase, and roll back an already-submitted single
pending commit. -/
def cmdSyncTrace (env : SyncEnv) : List Effect :=
  if env.originBranch = "" then [.die "cannot sync: no origin branch"]
  else
    let id := if env.pendingCount > 0 then "Change-Id" else ""
    let t : List Effect :=
      if env.pendingCount > 0 ∧ env.haveGerrit ∧ env.adviceUnset then [.configAdvice] else []
    if env.hasStaged then t ++ [.die (stagedMsg "sync")]
    else if env.hasUnstaged then t ++ [.die (unstagedMsg "sync")]
    else
      let t := t ++ [.gitPull]
      if env.pendingAfterPull = 1 ∧ id ≠ "" ∧ env.submittedAfterPull then
        t ++ [.gitReset env.branchpointAfterPull]
      else t

/-- `syncBranchContinue(flag, b, status)`: revalidate both remote hashes
against the snapshot and the local branch name; for `-continue` also
validate `MERGE_HEAD` against the snapshot source, `HEAD` against the
snapshot destination and the absence of unresolved conflicts, then commit
the merge; finally force the destination copy of codereview.cfg back,
amend the message into the canonical form and delete the status file.
For `-merge-back-to-parent` the source/destination roles are swapped. -/
def syncBranchContinue (flag : SyncFlag) (env : SyncEnv) (status : SyncBranchStatus) :
    List Effect :=
  match env.originHash status.Parent with
  | none => [.die (cannotResolveMsg ("origin/" ++ status.Parent))]
  | some hp =>
  if hp ≠ status.ParentHash then
    [.die ("cannot sync-branch" ++ flag.text ++ ": parent hash changed")]
  else
  match env.originHash status.Branch with
  | none => [.die (cannotResolveMsg ("origin/" ++ status.Branch))]
  | some hb =>
  if hb ≠ status.BranchHash then
    [.die ("cannot sync-branch" ++ flag.text ++ ": branch hash changed")]
  else if env.currentName ≠ status.Local then
    [.die ("cannot sync-branch" ++ flag.text ++ ": branch changed underfoot")]
  else
  let dst := if flag = .mergeBack then status.Parent else status.Branch
  let dstHash := if flag = .mergeBack then status.ParentHash else status.BranchHash
  let src := if flag = .mergeBack then status.Branch else status.Parent
  let srcHash := if flag = .mergeBack then status.BranchHash else status.ParentHash
  let op := if flag = .mergeBack then "REVERSE MERGE" else "merge"
  let msg := prefixFor dst ++ "all: " ++ op ++ " " ++ src ++ " (" ++
    srcHash.take 7 ++ ") into " ++ dst
  let conflictMsg :=
    if status.Conflicts ≠ [] then
      "Conflicts:\n\n- " ++ String.intercalate "\n- " status.Conflicts ++ "\n\n"
    else ""
  let reverseNote :=
    if flag = .mergeBack then
      "\n\nThis commit is a REVERSE MERGE.\nIt merges " ++ status.Branch ++
      " back into its parent branch, " ++ status.Parent ++ "." ++
      "\nThis marks the end of development on " ++ status.Branch ++ ".\n"
    else ""
  let fullMsg := msg ++ reverseNote ++ "\n\n" ++ conflictMsg ++ "Merge List:\n\n" ++
    env.mergeList
  let finish : List Effect :=
    [.checkoutCfg ("origin/" ++ dst), .gitCommitAmend fullMsg, .removeStatusFile]
  if flag = .cont then
    match env.mergeHead with
    | none => [.die ("cannot sync-branch" ++ flag.text ++ ": no pending merge")]
    | some mh =>
      if mh ≠ srcHash then
        [.die ("cannot sync-branch" ++ flag.text ++ ": MERGE_HEAD is not origin/" ++ src)]
      else if env.headHash ≠ dstHash then
        [.die ("cannot sync-branch" ++ flag.text ++ ": HEAD is not origin/" ++ dst)]
      else if env.hasUnstaged then
        [.die ("cannot sync-branch" ++ flag.text ++ ": unstaged changes (unresolved conflicts)")]
      else
        .gitCommit msg :: finish
  else finish

/-- `cmdSyncBranch(args)` with flags `-continue` / `-merge-back-to-parent`
already parsed into the two booleans.  Every check of the source is
translated in order; in particular the second configuration check
re-tests `parent` — as the source does — where its message speaks of
`branch`. -/
def cmdSyncBranch (cont mergeBack : Bool) (env : SyncEnv) : List Effect :=
  if env.cfgParentBranch = "" then
    [.die "cannot sync-branch: codereview.cfg does not list parent-branch"]
  else if env.cfgParentBranch = "" then
    [.die "cannot sync-branch: codereview.cfg does not list branch"]
  else if env.currentName = "HEAD" then
    [.die "cannot sync-branch: on detached head"]
  else if env.pendingCount > 0 then
    [.die "cannot sync-branch: pending changes exist"]
  else if cont then
    if mergeBack then
      [.die "cannot use -continue with -merge-back-to-parent"]
    else if ¬ env.statusFileExists then
      [.die "cannot sync-branch -continue: no pending sync-branch status file found"]
    else
      syncBranchContinue .cont env env.savedStatus
  else if env.mergeHead.isSome then
    [.die "cannot sync-branch: found pending merge"]
  else if env.hasStaged then [.die (stagedMsg "sync")]
  else if env.hasUnstaged then [.die (unstagedMsg "sync")]
  else
    let t := cmdSyncTrace env
    if diedTrace t then t
    else
      let t := t ++ [.gitFetch env.cfgParentBranch]
      match env.originHash env.cfgParentBranch with
      | none => t ++ [.die (cannotResolveMsg ("origin/" ++ env.cfgParentBranch))]
      | some ph =>
      match env.originHash env.cfgBranch with
      | none => t ++ [.die (cannotResolveMsg ("origin/" ++ env.cfgBranch))]
      | some bh =>
      let status : SyncBranchStatus :=
        { Local := env.currentName
          Parent := env.cfgParentBranch
          Branch := env.cfgBranch
          ParentHash := ph
          BranchHash := bh
          Conflicts := [] }
      let t := t ++ [.writeStatus status]
      -- The second `git rev-parse origin/<parent>` / `origin/<branch>`
      -- pair repeats lookups that just succeeded, so it cannot die here.
      if mergeBack ∧ env.logParentNotInBranch ≠ "" then
        t ++ [.die "cannot sync-branch --merge-back-to-parent: parent has new commits"]
      else
        let t := t ++
          (if mergeBack then
            [.gitResetHard ("origin/" ++ env.cfgParentBranch),
             .gitMerge ("origin/" ++ env.cfgBranch)]
          else [.gitMerge ("origin/" ++ env.cfgParentBranch)])
        let t := t ++ [.checkoutCfg (if mergeBack then ph else bh)]
        if mergeBack then t ++ syncBranchContinue .mergeBack env status
        else if ¬ env.mergeFails then t ++ syncBranchContinue .plain env status
        else if env.mergeConflicts = [] then
          let t := t ++ [.gitCommit "TEMPORARY MERGE MESSAGE"]
          if env.cfgCommitFails then
            t ++ [.die "cannot sync-branch: git merge failed but no conflicts found"]
          else t ++ syncBranchContinue .plain env status
        else
          t ++ [.writeStatus { status with Conflicts := env.mergeConflicts },
                .die "sync-branch: merge conflicts"]

/-- The six resume-time validations of `syncBranchContinue` for the
`-continue` flag: parent remote hash unchanged, branch remote hash
unchanged, local branch name unchanged, `MERGE_HEAD` equal to the
snapshot source hash (the parent hash in forward mode), `HEAD` equal to
the snapshot destination hash (the branch hash), and no unresolved
(unstaged) conflicts. -/
def contValidations (env : SyncEnv) (status : SyncBranchStatus) : Prop :=
  env.originHash status.Parent = some status.ParentHash ∧
  env.originHash status.Branch = some status.BranchHash ∧
  env.currentName = status.Local ∧
  env.mergeHead = some status.ParentHash ∧
  env.headHash = status.BranchHash ∧
  env.hasUnstaged = false

/-- A clean repository state whose codereview.cfg declares
`parent-branch` (`main`) but omits `branch`: no pending commits, no merge
in progress, no staged or unstaged changes. -/
def envMissingBranchCfg : SyncEnv :=
  { cfgParentBranch := "main", cfgBranch := "", currentName := "dev.x",
    originBranch := "origin/dev.x", pendingCount := 0, statusFileExists := false,
    savedStatus := { Local := "", Parent := "", Branch := "", ParentHash := "",
                     BranchHash := "", Conflicts := [] },
    mergeHead := none, hasStaged := false, hasUnstaged := false,
    headHash := "h0", originHash := fun s => if s = "main" then some "mh" else none,
    adviceUnset := false, haveGerrit := true, pendingAfterPull := 0,
    submittedAfterPull := false, branchpointAfterPull := "bp",
    logParentNotInBranch := "", mergeList := "", mergeFails := false,
    mergeConflicts := [], cfgCommitFails := false }

/-- A state ready for `-merge-back-to-parent` except that the parent
(`main`) has a commit not yet folded into the branch (`dev.x`). -/
def envMergeBackBlocked : SyncEnv :=
  { cfgParentBranch := "main", cfgBranch := "dev.x", currentName := "dev.x",
    originBranch := "origin/dev.x", pendingCount := 0, statusFileExists := false,
    savedStatus := { Local := "", Parent := "", Branch := "", ParentHash := "",
                     BranchHash := "", Conflicts := [] },
    mergeHead := none, hasStaged := false, hasUnstaged := false,
    headHash := "bh", originHash := fun s => if s = "main" then some "mh"
      else if s = "dev.x" then some "bh" else none,
    adviceUnset := false, haveGerrit := true, pendingAfterPull := 0,
    submittedAfterPull := false, branchpointAfterPull := "bp",
    logParentNotInBranch := "+ 2024-05-01 abcd123 one commit", mergeList := "",
    mergeFails := false, mergeConflicts := [], cfgCommitFails := false }

/-- The state immediately after a successful sync-branch completion: the
status file has been removed, and the freshly created merge commit (not
yet on origin/dev.x) makes the branch have one pending commit. -/
def envAfterSyncBranchSuccess : SyncEnv :=
  { cfgParentBranch := "main", cfgBranch := "dev.x", currentName := "dev.x",
    originBranch := "origin/dev.x", pendingCount := 1, statusFileExists := false,
    savedStatus := { Local := "", Parent := "", Branch := "", ParentHash := "",
                     BranchHash := "", Conflicts := [] },
    mergeHead := none, hasStaged := false, hasUnstaged := false,
    headHash := "mc", originHash := fun s => if s = "main" then some "mh"
      else if s = "dev.x" then some "bh" else none,
    adviceUnset := false, haveGerrit := true, pendingAfterPull := 1,
    submittedAfterPull := false, branchpointAfterPull := "bh",
    logParentNotInBranch := "", mergeList := "", mergeFails := false,
    mergeConflicts := [], cfgCommitFails := false }

/-! ## Theorems: Branch State Builder -/

/-- C6: for every branch with zero pending commits beyond its upstream —
an empty `upstream..branch` log — and for every branch in detached-head
state, `loadPending` returns an empty commit list and a branchpoint equal
to the branch's current commit (`gitHash("HEAD")`). -/
theorem loadPending_zero_pending (env : PendingEnv)
    (h : env.detached = true ∨ env.log = []) :
    loadPending env = { pending := [], branchpoint := env.headHash, commitsAhead := 0 } := by
  rcases h with h | h <;> simp [loadPending, h]

/-- Witness for C6 at a concrete environment with an empty log. -/
theorem loadPending_zero_pending_witness :
    loadPending
        { headHash := "abc0123", detached := false, log := [],
          reachableFromOrigin := fun _ => false } =
      { pending := [], branchpoint := "abc0123", commitsAhead := 0 } :=
  loadPending_zero_pending _ (Or.inr rfl)

theorem commitOfRecord_parent_headD (r : LogRecord) :
    (commitOfRecord r).parent = r.parents.headD "" := by
  cases h : r.parents <;> simp [commitOfRecord, h]

theorem loadPendingGo_parent_headD (reachable : String → Bool)
    (recs : List LogRecord) (acc : List Commit) (bp : String)
    (hacc : ∀ c ∈ acc, c.parent = c.parents.headD "") :
    ∀ c ∈ (loadPendingGo reachable recs acc bp).1, c.parent = c.parents.headD "" := by
  induction recs generalizing acc bp with
  | nil => simpa [loadPendingGo] using hacc
  | cons r rest ih =>
    have hext : ∀ (c₀ : Commit), c₀.parent = c₀.parents.headD "" →
        ∀ c ∈ acc ++ [c₀], c.parent = c.parents.headD "" := by
      intro c₀ h₀ c hc
      rcases List.mem_append.1 hc with hc | hc
      · exact hacc c hc
      · simp only [List.mem_singleton] at hc
        subst hc; exact h₀
    have hpc : (pendingCommitOfRecord r).parent =
        (pendingCommitOfRecord r).parents.headD "" := by
      simpa [pendingCommitOfRecord] using commitOfRecord_parent_headD r
    simp only [loadPendingGo]
    by_cases hm : r.parents.length > 1
    · simp only [hm, if_pos]
      cases hf : r.parents.find? reachable with
      | some p =>
        intro c hc
        simp only [hf] at hc
        exact hext (commitOfRecord r)
          (by simpa [commitOfRecord_parent_headD r, commitOfRecord] using
            commitOfRecord_parent_headD r) c hc
      | none =>
        simp only [hf]
        exact ih _ _ (hext (pendingCommitOfRecord r) hpc)
    · simp only [hm, if_neg, if_false]
      exact ih _ _ (hext (pendingCommitOfRecord r) hpc)

/-- C10: every commit constructed by `loadPending` satisfies the declared
invariant of the `Commit` struct: `Parent` equals `Parents[0]` when the
parent list is nonempty and the empty string otherwise (a `Commit` is
immutable after construction, so the invariant persists; in this
embedding `Commit` is a pure value). -/
theorem loadPending_commit_parent_invariant (env : PendingEnv) (c : Commit)
    (hc : c ∈ (loadPending env).pending) :
    c.parent = c.parents.headD "" := by
  unfold loadPending at hc
  by_cases hd : env.detached
  · simp [hd] at hc
  · by_cases hl : env.log.isEmpty
    · simp [hd, hl] at hc
    · simp only [hd, hl, if_false, Bool.false_eq_true, if_neg] at hc
      exact loadPendingGo_parent_headD env.reachableFromOrigin env.log [] ""
        (by intro c hc; simp at hc) c hc

/-- Witness for C10: the invariant evaluated on a commit produced by
`loadPending` from a concrete two-record log. -/
theorem loadPending_commit_parent_invariant_witness :
    (pendingCommitOfRecord
        { hash := "h1", shortHash := "h1s", parents := ["h2"], tree := "t1",
          message := "m1", subject := "s1", authorName := "a", authorEmail := "e",
          authorDate := "1" }).parent =
      (pendingCommitOfRecord
        { hash := "h1", shortHash := "h1s", parents := ["h2"], tree := "t1",
          message := "m1", subject := "s1", authorName := "a", authorEmail := "e",
          authorDate := "1" }).parents.headD "" :=
  loadPending_commit_parent_invariant
    { headHash := "h1", detached := false,
      log := [{ hash := "h1", shortHash := "h1s", parents := ["h2"], tree := "t1",
                message := "m1", subject := "s1", authorName := "a", authorEmail := "e",
                authorDate := "1" }],
      reachableFromOrigin := fun _ => false }
    _ (by simp [loadPending, loadPendingGo])

theorem loadPendingGo_merge_stop (reachable : String → Bool)
    (pre : List LogRecord) (m : LogRecord) (post : List LogRecord) (p : String)
    (hpre : ∀ r ∈ pre, r.parents.length > 1 → r.parents.find? reachable = none)
    (hm : m.parents.length > 1)
    (hp : m.parents.find? reachable = some p) :
    ∀ (acc : List Commit) (bp : String),
      loadPendingGo reachable (pre ++ m :: post) acc bp =
        (acc ++ pre.map pendingCommitOfRecord ++ [commitOfRecord m], p) := by
  induction pre with
  | nil =>
    intro acc bp
    simp [loadPendingGo, hm, hp]
  | cons r rest ih =>
    intro acc bp
    have ih' := ih (fun r' hr' h' => hpre r' (List.mem_cons_of_mem _ hr') h')
    simp only [List.cons_append, loadPendingGo]
    by_cases h1 : r.parents.length > 1
    · simp only [if_pos h1, hpre r (List.mem_cons_self r rest) h1, List.append_eq]
      rw [ih']
      simp
    · simp only [if_neg h1, List.append_eq]
      rw [ih']
      simp

/-- C1: whenever the `upstream..branch` log reaches a multi-parent
(merge) record `m` — none of the earlier records having stopped the
traversal — `loadPending` tests the parents of `m` in order for
reachability from the upstream reference; the first reachable parent `p`
becomes the branchpoint, traversal stops immediately (the pending list is
exactly the earlier records plus `m` itself, nothing from the rest of the
log), and, for any ancestry notion under which neither the records before
`m` nor `m` itself are ancestors of `p` (as reverse-topological order
guarantees), no ancestor of `p` appears in the pending list. -/
theorem loadPending_merge_branchpoint (env : PendingEnv)
    (pre post : List LogRecord) (m : LogRecord) (p : String)
    (hdet : env.detached = false)
    (hlog : env.log = pre ++ m :: post)
    (hpre : ∀ r ∈ pre, r.parents.length > 1 →
      r.parents.find? env.reachableFromOrigin = none)
    (hm : m.parents.length > 1)
    (hp : m.parents.find? env.reachableFromOrigin = some p)
    (hpne : p ≠ "") :
    (loadPending env).pending = pre.map pendingCommitOfRecord ++ [commitOfRecord m] ∧
    (loadPending env).branchpoint = p ∧
    env.reachableFromOrigin p = true ∧
    p ∈ m.parents ∧
    (∀ anc : String → Prop, (∀ r ∈ pre, ¬ anc r.hash) → ¬ anc m.hash →
      ∀ c ∈ (loadPending env).pending, ¬ anc c.hash) := by
  have hne : env.log.isEmpty = false := by
    rw [hlog]; cases pre <;> simp
  have hrun := loadPendingGo_merge_stop env.reachableFromOrigin pre m post p
    hpre hm hp [] ""
  have hload : loadPending env =
      { pending := pre.map pendingCommitOfRecord ++ [commitOfRecord m],
        branchpoint := p,
        commitsAhead := (pre.map pendingCommitOfRecord ++ [commitOfRecord m]).length } := by
    rw [loadPending, hdet]
    simp only [Bool.false_eq_true, if_false, hne, hlog, hrun]
    simp [hpne]
  refine ⟨by rw [hload], by rw [hload], List.find?_some hp,
    List.mem_of_find?_eq_some hp, ?_⟩
  intro anc hancpre hancm c hc
  rw [hload] at hc
  simp only [List.mem_append, List.mem_map, List.mem_singleton] at hc
  rcases hc with ⟨r, hr, rfl⟩ | rfl
  · exact fun h => hancpre r hr h
  · exact fun h => hancm h

/-- Witness for C1: a two-record log whose second record is a merge with
an unreachable first parent `x` and a reachable second parent `u`; the
branchpoint is `u` and the pending list stops at the merge record. -/
theorem loadPending_merge_branchpoint_witness :
    (loadPending
        { headHash := "t1", detached := false,
          log :=
            [{ hash := "t1", shortHash := "t1s", parents := ["m1"], tree := "tt1",
               message := "child", subject := "child", authorName := "a",
               authorEmail := "e", authorDate := "1" },
             { hash := "m1", shortHash := "m1s", parents := ["x", "u"], tree := "tt2",
               message := "merge", subject := "merge", authorName := "a",
               authorEmail := "e", authorDate := "2" },
             { hash := "x", shortHash := "xs", parents := ["u"], tree := "tt3",
               message := "side", subject := "side", authorName := "a",
               authorEmail := "e", authorDate := "3" }],
          reachableFromOrigin := fun s => s == "u" }).branchpoint = "u" ∧
    (loadPending
        { headHash := "t1", detached := false,
          log :=
            [{ hash := "t1", shortHash := "t1s", parents := ["m1"], tree := "tt1",
               message := "child", subject := "child", authorName := "a",
               authorEmail := "e", authorDate := "1" },
             { hash := "m1", shortHash := "m1s", parents := ["x", "u"], tree := "tt2",
               message := "merge", subject := "merge", authorName := "a",
               authorEmail := "e", authorDate := "2" },
             { hash := "x", shortHash := "xs", parents := ["u"], tree := "tt3",
               message := "side", subject := "side", authorName := "a",
               authorEmail := "e", authorDate := "3" }],
          reachableFromOrigin := fun s => s == "u" }).pending =
      [pendingCommitOfRecord
         { hash := "t1", shortHash := "t1s", parents := ["m1"], tree := "tt1",
           message := "child", subject := "child", authorName := "a",
           authorEmail := "e", authorDate := "1" },
       commitOfRecord
         { hash := "m1", shortHash := "m1s", parents := ["x", "u"], tree := "tt2",
           message := "merge", subject := "merge", authorName := "a",
           authorEmail := "e", authorDate := "2" }] := by
  have h := loadPending_merge_branchpoint
    { headHash := "t1", detached := false,
      log :=
        [{ hash := "t1", shortHash := "t1s", parents := ["m1"], tree := "tt1",
           message := "child", subject := "child", authorName := "a",
           authorEmail := "e", authorDate := "1" },
         { hash := "m1", shortHash := "m1s", parents := ["x", "u"], tree := "tt2",
           message := "merge", subject := "merge", authorName := "a",
           authorEmail := "e", authorDate := "2" },
         { hash := "x", shortHash := "xs", parents := ["u"], tree := "tt3",
           message := "side", subject := "side", authorName := "a",
           authorEmail := "e", authorDate := "3" }]
      , reachableFromOrigin := fun s => s == "u" }
    [{ hash := "t1", shortHash := "t1s", parents := ["m1"], tree := "tt1",
       message := "child", subject := "child", authorName := "a",
       authorEmail := "e", authorDate := "1" }]
    [{ hash := "x", shortHash := "xs", parents := ["u"], tree := "tt3",
       message := "side", subject := "side", authorName := "a",
       authorEmail := "e", authorDate := "3" }]
    { hash := "m1", shortHash := "m1s", parents := ["x", "u"], tree := "tt2",
      message := "merge", subject := "merge", authorName := "a",
      authorEmail := "e", authorDate := "2" }
    "u" rfl rfl (by decide) (by decide) (by decide) (by decide)
  exact ⟨h.2.1, h.1⟩

/-! ## Theorems: Review Metadata Client -/

theorem chunk10_flatten (l : List String) : (chunk10 l).flatten = l := by
  induction l using chunk10.induct with
  | case1 => simp [chunk10]
  | case2 l h ih => rw [chunk10]; simp [h, ih]

theorem chunk10_length_eq (l : List String) : (chunk10 l).length = (l.length + 9) / 10 := by
  induction l using chunk10.induct with
  | case1 => simp [chunk10]
  | case2 l h ih =>
    have hp : 0 < l.length := List.length_pos.mpr h
    rw [chunk10, dif_neg h]
    simp only [List.length_cons, ih, List.length_drop]
    omega

theorem chunk10_sizes (l : List String) : ∀ g ∈ chunk10 l, g.length ≤ 10 := by
  induction l using chunk10.induct with
  | case1 => simp [chunk10]
  | case2 l h ih =>
    rw [chunk10, dif_neg h]
    intro g hg
    rcases List.mem_cons.1 hg with rfl | hg
    · simpa using List.length_take_le 10 l
    · exact ih g hg

theorem readGerritChangesBatch_goodServer (row : String → List GerritChange)
    (g : List String) :
    readGerritChangesBatch (goodServer row g) g.length = { c := g.map row, err := none } := by
  match g with
  | [] => simp [goodServer, readGerritChangesBatch]
  | [c] => simp [goodServer, readGerritChangesBatch]
  | a :: b :: t => simp [goodServer, readGerritChangesBatch]

theorem mergeGerritResults_all_ok (rs : List (List (List GerritChange))) :
    mergeGerritResults (rs.map fun x => { c := x, err := none }) = .ok rs.flatten := by
  induction rs with
  | nil => simp [mergeGerritResults]
  | cons x rest ih => simp [mergeGerritResults, ih]

theorem readGerritChanges_goodServer (row : String → List GerritChange)
    (clauses : List String) :
    readGerritChanges (goodServer row) clauses = .ok (clauses.map row) := by
  rw [readGerritChanges,
    List.map_congr_left (fun g _ => readGerritChangesBatch_goodServer row g),
    show ((chunk10 clauses).map fun g =>
        ({ c := g.map row, err := none } : GerritChangeResult)) =
      ((chunk10 clauses).map (List.map row)).map (fun x => { c := x, err := none })
      from by simp [List.map_map],
    mergeGerritResults_all_ok, ← List.map_flatten, chunk10_flatten]

/-- C5: for a list of M > 10 change identifiers, the batched fetch
partitions the corresponding query clauses into exactly ⌈M/10⌉ groups of
at most 10 clauses, issues one request per group, and — against a server
whose per-clause answer is `row` and which serves the flat shape for a
single-clause request (normalized by the client) and the nested shape
otherwise — returns exactly M result lists whose position i is the
server's answer for identifier i. -/
theorem gerritChanges_batched (row : String → List GerritChange) (ids : List String)
    (h : 10 < ids.length) :
    GerritChanges (goodServer row) ids =
      .ok (ids.map fun id => row (changeClause id)) ∧
    (chunk10 (ids.map changeClause)).length = (ids.length + 9) / 10 ∧
    (∀ g ∈ chunk10 (ids.map changeClause), g.length ≤ 10) ∧
    (ids.map fun id => row (changeClause id)).length = ids.length := by
  have hne : ids.isEmpty = false := by
    cases ids with
    | nil => simp at h
    | cons a t => simp
  refine ⟨?_, ?_, chunk10_sizes _, by simp⟩
  · rw [GerritChanges, hne]
    simp only [Bool.false_eq_true, if_false, if_neg]
    rw [readGerritChanges_goodServer, List.map_map]
    rfl
  · rw [chunk10_length_eq]
    simp

/-- Witness for C5: eleven identifiers, the last group holding exactly
one clause (served in the flat shape). -/
theorem gerritChanges_batched_witness :
    GerritChanges (goodServer fun c => [sampleChange c])
        ["i1", "i2", "i3", "i4", "i5", "i6", "i7", "i8", "i9", "i10", "i11"] =
      .ok (["i1", "i2", "i3", "i4", "i5", "i6", "i7", "i8", "i9", "i10", "i11"].map
        fun id => [sampleChange (changeClause id)]) :=
  (gerritChanges_batched (fun c => [sampleChange c])
    ["i1", "i2", "i3", "i4", "i5", "i6", "i7", "i8", "i9", "i10", "i11"]
    (by decide)).1

/-- C8: the clause list built by the batched query construction is
positionally aligned with the input identifier list: it has the same
length, clause i is the clause built from identifier i, and that clause
is the sentinel `is:closed+is:open` (matching nothing server-side) when
identifier i ends in the separator `~` with an empty trailer part —
rather than the identifier being omitted — and `change:<escaped id>`
otherwise. -/
theorem gerritChanges_sentinel (ids : List String) (i : Nat) (h : i < ids.length) :
    (ids.map changeClause).length = ids.length ∧
    (ids.map changeClause)[i]? = some (changeClause ids[i]) ∧
    (endsInTilde ids[i] = true →
      changeClause ids[i] = "is:closed+is:open") ∧
    (endsInTilde ids[i] = false →
      changeClause ids[i] = "change:" ++ queryEscape ids[i]) := by
  refine ⟨by simp, ?_, ?_, ?_⟩
  · rw [List.getElem?_map, List.getElem?_eq_getElem h]
    rfl
  · intro he; simp [changeClause, he]
  · intro he; simp [changeClause, he]

/-- Witness for C8: two identifiers, the second the `fullChangeID` of a
commit with no Change-Id (`project~branch~` with empty trailer). -/
theorem gerritChanges_sentinel_witness :
    (["p~b~I123", "p~b~"].map changeClause).length = 2 ∧
    changeClause "p~b~" = "is:closed+is:open" := by
  have h := gerritChanges_sentinel ["p~b~I123", "p~b~"] 1 (by decide)
  exact ⟨by simpa using h.1, h.2.2.1 (by decide)⟩

theorem mergeGerritResults_first_error (pre : List GerritChangeResult)
    (r : GerritChangeResult) (post : List GerritChangeResult) (e : String)
    (hpre : ∀ x ∈ pre, x.err = none) (hr : r.err = some e) :
    mergeGerritResults (pre ++ r :: post) = .error e := by
  induction pre with
  | nil => simp [mergeGerritResults, hr]
  | cons x rest ih =>
    have hx : x.err = none := hpre x (List.mem_cons_self x rest)
    have hrest := ih (fun y hy => hpre y (List.mem_cons_of_mem _ hy))
    simp [mergeGerritResults, hx, hrest]

/-- Counterexample to C2 as stated: with eleven query clauses (two
groups) and a server that resolves the ten-clause group correctly but
fails the single-clause group, the ten-clause group's batch result is a
success, yet the whole batched fetch returns the error and no results —
the caller does not receive the successfully resolved group. -/
theorem readGerritChanges_partial_failure_counterexample :
    (readGerritChangesBatch
        (failOnSingletonServer (fun c => [sampleChange c])
          ["q1", "q2", "q3", "q4", "q5", "q6", "q7", "q8", "q9", "q10"])
        10).err = none ∧
    readGerritChanges (failOnSingletonServer (fun c => [sampleChange c]))
        ["q1", "q2", "q3", "q4", "q5", "q6", "q7", "q8", "q9", "q10", "q11"] =
      .error "timeout" := by
  constructor
  · simp [failOnSingletonServer, readGerritChangesBatch]
  · rw [readGerritChanges]
    rw [show chunk10 ["q1", "q2", "q3", "q4", "q5", "q6", "q7", "q8", "q9", "q10", "q11"] =
        [["q1", "q2", "q3", "q4", "q5", "q6", "q7", "q8", "q9", "q10"], ["q11"]]
      from by simp [chunk10]]
    simp [failOnSingletonServer, readGerritChangesBatch, mergeGerritResults]

/-- C2 (amended): a result-count mismatch, transport failure, or decode
failure in any one identifier group does not stay scoped to that group:
once every group dispatched before the failed one has succeeded, the
whole batched fetch returns that group's error and no results at all;
per-item degradation is left to the caller, which applies it to every
identifier of the fetch rather than only the failed group's. -/
theorem readGerritChanges_group_failure_aborts (server : List String → WireResp)
    (clauses : List String) (pre post : List (List String)) (g : List String)
    (e : String)
    (hsplit : chunk10 clauses = pre ++ g :: post)
    (hpre : ∀ g2 ∈ pre, (readGerritChangesBatch (server g2) g2.length).err = none)
    (hg : (readGerritChangesBatch (server g) g.length).err = some e) :
    readGerritChanges server clauses = .error e := by
  rw [readGerritChanges, hsplit, List.map_append, List.map_cons]
  refine mergeGerritResults_first_error _ _ _ e ?_ hg
  intro x hx
  rcases List.mem_map.1 hx with ⟨g2, hg2, rfl⟩
  exact hpre g2 hg2

/-- Witness for the amended C2 at the concrete two-group input. -/
theorem readGerritChanges_group_failure_aborts_witness :
    readGerritChanges (failOnSingletonServer (fun c => [sampleChange c]))
        ["r1", "r2", "r3", "r4", "r5", "r6", "r7", "r8", "r9", "r10", "r11"] =
      .error "timeout" :=
  readGerritChanges_group_failure_aborts _ _
    [["r1", "r2", "r3", "r4", "r5", "r6", "r7", "r8", "r9", "r10"]] [] ["r11"] "timeout"
    (by simp [chunk10])
    (by intro g2 hg2
        simp only [List.mem_singleton] at hg2
        subst hg2
        simp [failOnSingletonServer, readGerritChangesBatch])
    (by simp [failOnSingletonServer, readGerritChangesBatch])

/-! ## Theorems: Merge State Machine -/

/-- C7: resuming the merge workflow with `-continue` finalizes (commits
the merge and ends by deleting the persisted status, never dying) exactly
when all six resume-time validations hold; if any fails the invocation
dies fatally. -/
theorem syncBranchContinue_validations (env : SyncEnv) (status : SyncBranchStatus) :
    ((syncBranchContinue .cont env status).getLast? = some .removeStatusFile ∧
      diedTrace (syncBranchContinue .cont env status) = false) ↔
    contValidations env status := by
  unfold syncBranchContinue contValidations
  rcases h1 : env.originHash status.Parent with _ | hp
  · simp [diedTrace]
  · by_cases e1 : hp = status.ParentHash
    · subst e1
      rcases h2 : env.originHash status.Branch with _ | hb
      · simp [diedTrace]
      · by_cases e2 : hb = status.BranchHash
        · subst e2
          by_cases e3 : env.currentName = status.Local
          · rcases h4 : env.mergeHead with _ | mh
            · simp [diedTrace, e3, h4]
            · by_cases e4 : mh = status.ParentHash
              · subst e4
                by_cases e5 : env.headHash = status.BranchHash
                · by_cases e6 : env.hasUnstaged
                  · simp [diedTrace, e3, e5, e6]
                  · simp [diedTrace, e3, e5, e6]
                · simp [diedTrace, e3, e5]
              · simp [diedTrace, e3, e4]
          · simp [diedTrace, e3]
        · simp [diedTrace, e2]
    · simp [diedTrace, e1]

/-- Witness for C7: a concrete environment satisfying all six
validations finalizes and does not die. -/
theorem syncBranchContinue_validations_witness :
    ((syncBranchContinue .cont
        { cfgParentBranch := "main", cfgBranch := "dev.x", currentName := "dev.x",
          originBranch := "origin/dev.x", pendingCount := 0, statusFileExists := true,
          savedStatus := { Local := "dev.x", Parent := "main", Branch := "dev.x",
                           ParentHash := "ph", BranchHash := "bh", Conflicts := [] },
          mergeHead := some "ph", hasStaged := false, hasUnstaged := false,
          headHash := "bh", originHash := fun s => if s = "main" then some "ph"
            else if s = "dev.x" then some "bh" else none,
          adviceUnset := false, haveGerrit := true, pendingAfterPull := 0,
          submittedAfterPull := false, branchpointAfterPull := "bp",
          logParentNotInBranch := "", mergeList := "+ list", mergeFails := false,
          mergeConflicts := [], cfgCommitFails := false }
        { Local := "dev.x", Parent := "main", Branch := "dev.x",
          ParentHash := "ph", BranchHash := "bh", Conflicts := [] }).getLast? =
      some .removeStatusFile ∧
      diedTrace (syncBranchContinue .cont
        { cfgParentBranch := "main", cfgBranch := "dev.x", currentName := "dev.x",
          originBranch := "origin/dev.x", pendingCount := 0, statusFileExists := true,
          savedStatus := { Local := "dev.x", Parent := "main", Branch := "dev.x",
                           ParentHash := "ph", BranchHash := "bh", Conflicts := [] },
          mergeHead := some "ph", hasStaged := false, hasUnstaged := false,
          headHash := "bh", originHash := fun s => if s = "main" then some "ph"
            else if s = "dev.x" then some "bh" else none,
          adviceUnset := false, haveGerrit := true, pendingAfterPull := 0,
          submittedAfterPull := false, branchpointAfterPull := "bp",
          logParentNotInBranch := "", mergeList := "+ list", mergeFails := false,
          mergeConflicts := [], cfgCommitFails := false }
        { Local := "dev.x", Parent := "main", Branch := "dev.x",
          ParentHash := "ph", BranchHash := "bh", Conflicts := [] }) = false) :=
  (syncBranchContinue_validations _ _).mpr
    (by refine ⟨by simp, by simp, rfl, rfl, rfl, rfl⟩)

/-- C3 (code bug): the branch-name precondition is never checked.  On a
configuration that declares `parent-branch` but omits `branch` — all
other entry preconditions satisfied — the workflow does not abort at the
configuration check (the source re-tests `parent` where its fatal message
speaks of `branch`, dead code since `parent` was just checked): it runs
the mutating pull and fetch and only dies afterwards, failing to resolve
the ref `origin/` built from the empty branch name. -/
theorem cmdSyncBranch_missing_branch_not_checked :
    cmdSyncBranch false false envMissingBranchCfg =
      [.gitPull, .gitFetch "main", .die (cannotResolveMsg "origin/")] ∧
    Effect.die "cannot sync-branch: codereview.cfg does not list branch" ∉
      cmdSyncBranch false false envMissingBranchCfg ∧
    (cmdSyncBranch false false envMissingBranchCfg).head? = some .gitPull := by
  decide

/-- Counterexample to C4 as stated: a reverse-mode merge attempted while
the parent has an unmerged commit is indeed refused fatally, but the
persisted MergeStatus file has already been written by then (and the sync
pull and parent fetch have already run), contradicting the claimed
"no state mutation and no persisted MergeStatus file written". -/
theorem syncBranch_mergeBack_counterexample :
    cmdSyncBranch false true envMergeBackBlocked =
      [.gitPull, .gitFetch "main",
       .writeStatus { Local := "dev.x", Parent := "main", Branch := "dev.x",
                      ParentHash := "mh", BranchHash := "bh", Conflicts := [] },
       .die "cannot sync-branch --merge-back-to-parent: parent has new commits"] ∧
    Effect.writeStatus { Local := "dev.x", Parent := "main", Branch := "dev.x",
                         ParentHash := "mh", BranchHash := "bh", Conflicts := [] } ∈
      cmdSyncBranch false true envMergeBackBlocked ∧
    diedTrace (cmdSyncBranch false true envMergeBackBlocked) = true := by
  decide

/-- C4 (amended): a reverse-mode merge attempted while the parent has
unmerged commits not yet folded into the branch is refused with a fatal
error before any merge action is attempted (no reset, merge or commit
effect is emitted) — but only after the sync pull, the parent fetch and
the write of the persisted MergeStatus file, which the workflow performs
before the refusal check. -/
theorem syncBranch_mergeBack_refused (env : SyncEnv) (ph bh : String)
    (hcfg : env.cfgParentBranch ≠ "")
    (hname : env.currentName ≠ "HEAD")
    (hpend : env.pendingCount = 0)
    (hmh : env.mergeHead = none)
    (hst : env.hasStaged = false)
    (hun : env.hasUnstaged = false)
    (horig : env.originBranch ≠ "")
    (hP : env.originHash env.cfgParentBranch = some ph)
    (hB : env.originHash env.cfgBranch = some bh)
    (hlog : env.logParentNotInBranch ≠ "") :
    cmdSyncBranch false true env =
      [.gitPull, .gitFetch env.cfgParentBranch,
       .writeStatus { Local := env.currentName, Parent := env.cfgParentBranch,
                      Branch := env.cfgBranch, ParentHash := ph, BranchHash := bh,
                      Conflicts := [] },
       .die "cannot sync-branch --merge-back-to-parent: parent has new commits"] ∧
    (∀ t, Effect.gitMerge t ∉ cmdSyncBranch false true env) ∧
    (∀ t, Effect.gitResetHard t ∉ cmdSyncBranch false true env) ∧
    (∀ m, Effect.gitCommit m ∉ cmdSyncBranch false true env) := by
  have htrace : cmdSyncBranch false true env =
      [.gitPull, .gitFetch env.cfgParentBranch,
       .writeStatus { Local := env.currentName, Parent := env.cfgParentBranch,
                      Branch := env.cfgBranch, ParentHash := ph, BranchHash := bh,
                      Conflicts := [] },
       .die "cannot sync-branch --merge-back-to-parent: parent has new commits"] := by
    unfold cmdSyncBranch cmdSyncTrace
    simp [hcfg, hname, hpend, hmh, hst, hun, horig, hP, hB, hlog, diedTrace]
  refine ⟨htrace, ?_, ?_, ?_⟩ <;> intro x <;> rw [htrace] <;> simp

/-- Witness for the amended C4 at the concrete blocked state. -/
theorem syncBranch_mergeBack_refused_witness :
    cmdSyncBranch false true envMergeBackBlocked =
      [.gitPull, .gitFetch envMergeBackBlocked.cfgParentBranch,
       .writeStatus { Local := envMergeBackBlocked.currentName,
                      Parent := envMergeBackBlocked.cfgParentBranch,
                      Branch := envMergeBackBlocked.cfgBranch,
                      ParentHash := "mh", BranchHash := "bh", Conflicts := [] },
       .die "cannot sync-branch --merge-back-to-parent: parent has new commits"] :=
  (syncBranch_mergeBack_refused envMergeBackBlocked "mh" "bh"
    (by decide) (by decide) (by decide) (by decide) (by decide) (by decide)
    (by decide) (by decide) (by decide) (by decide)).1

theorem syncBranchContinue_shape (flag : SyncFlag) (env : SyncEnv)
    (st : SyncBranchStatus) :
    diedTrace (syncBranchContinue flag env st) = true ∨
    (syncBranchContinue flag env st).getLast? = some .removeStatusFile := by
  unfold syncBranchContinue
  rcases h1 : env.originHash st.Parent with _ | hp
  · left; simp [diedTrace]
  · by_cases e1 : hp = st.ParentHash
    · subst e1
      rcases h2 : env.originHash st.Branch with _ | hb
      · left; simp [diedTrace]
      · by_cases e2 : hb = st.BranchHash
        · subst e2
          by_cases e3 : env.currentName = st.Local
          · by_cases e4 : flag = SyncFlag.cont
            · subst e4
              rcases h4 : env.mergeHead with _ | mh
              · left; simp [diedTrace, e3]
              · by_cases e5 : mh = st.ParentHash
                · subst e5
                  by_cases e6 : env.headHash = st.BranchHash
                  · by_cases e7 : env.hasUnstaged
                    · left; simp [diedTrace, e3, e6, e7]
                    · right; simp [e3, e6, e7]
                  · left; simp [diedTrace, e3, e6]
                · left; simp [diedTrace, e3, e5]
            · rcases flag with _ | _ | _
              · right; simp [e3]
              · exact absurd rfl e4
              · right; simp [e3]
          · left; simp [diedTrace, e3]
        · left; simp [diedTrace, e2]
    · left; simp [diedTrace, e1]

theorem syncBranchContinue_success_removes (flag : SyncFlag) (env : SyncEnv)
    (st : SyncBranchStatus)
    (hfin : diedTrace (syncBranchContinue flag env st) = false) :
    (syncBranchContinue flag env st).getLast? = some .removeStatusFile := by
  rcases syncBranchContinue_shape flag env st with h | h
  · rw [hfin] at h; exact absurd h (by simp)
  · exact h

/-- Counterexample to C9 as stated: invoked immediately after a
successful completion, `sync-branch -continue` does fail cleanly, but
with the pending-changes diagnostic — the merge commit it just created is
still pending — which fires before the status-file check; the claimed
'no pending status' diagnostic is not produced. -/
theorem syncBranch_continue_after_success_counterexample :
    cmdSyncBranch true false envAfterSyncBranchSuccess =
      [.die "cannot sync-branch: pending changes exist"] ∧
    Effect.die "cannot sync-branch -continue: no pending sync-branch status file found" ∉
      cmdSyncBranch true false envAfterSyncBranchSuccess := by
  decide

/-- C9 (amended): successful finalization deletes the persisted
MergeStatus file (every finalizing trace ends with its removal), and
invoking `-continue` again never repeats or re-commits the merge: with no
status file present and an empty pending list it dies fatally with the
'no pending sync-branch status file found' diagnostic, while immediately
after a successful completion it dies even earlier, with the
pending-changes diagnostic, because the newly created merge commit is
still pending. -/
theorem syncBranch_resume_idempotent (flag : SyncFlag) (env env2 env3 : SyncEnv)
    (st : SyncBranchStatus)
    (hfin : diedTrace (syncBranchContinue flag env st) = false)
    (h2cfg : env2.cfgParentBranch ≠ "") (h2name : env2.currentName ≠ "HEAD")
    (h2pend : env2.pendingCount = 0) (h2file : env2.statusFileExists = false)
    (h3cfg : env3.cfgParentBranch ≠ "") (h3name : env3.currentName ≠ "HEAD")
    (h3pend : 0 < env3.pendingCount) :
    (syncBranchContinue flag env st).getLast? = some .removeStatusFile ∧
    cmdSyncBranch true false env2 =
      [.die "cannot sync-branch -continue: no pending sync-branch status file found"] ∧
    cmdSyncBranch true false env3 =
      [.die "cannot sync-branch: pending changes exist"] := by
  refine ⟨syncBranchContinue_success_removes flag env st hfin, ?_, ?_⟩
  · unfold cmdSyncBranch
    simp [h2cfg, h2name, h2pend, h2file]
  · unfold cmdSyncBranch
    simp [h3cfg, h3name, h3pend]

/-- Witness for the amended C9: a finalizing continue run and the two
failing resume states, instantiated concretely. -/
theorem syncBranch_resume_idempotent_witness :
    cmdSyncBranch true false envAfterSyncBranchSuccess =
      [.die "cannot sync-branch: pending changes exist"] :=
  (syncBranch_resume_idempotent .plain
    { cfgParentBranch := "main", cfgBranch := "dev.x", currentName := "dev.x",
      originBranch := "origin/dev.x", pendingCount := 0, statusFileExists := true,
      savedStatus := { Local := "dev.x", Parent := "main", Branch := "dev.x",
                       ParentHash := "mh", BranchHash := "bh", Conflicts := [] },
      mergeHead := none, hasStaged := false, hasUnstaged := false,
      headHash := "bh", originHash := fun s => if s = "main" then some "mh"
        else if s = "dev.x" then some "bh" else none,
      adviceUnset := false, haveGerrit := true, pendingAfterPull := 0,
      submittedAfterPull := false, branchpointAfterPull := "bh",
      logParentNotInBranch := "", mergeList := "+ one", mergeFails := false,
      mergeConflicts := [], cfgCommitFails := false }
    { envAfterSyncBranchSuccess with pendingCount := 0 }
    envAfterSyncBranchSuccess
    { Local := "dev.x", Parent := "main", Branch := "dev.x",
      ParentHash := "mh", BranchHash := "bh", Conflicts := [] }
    (by simp [syncBranchContinue, diedTrace])
    (by decide) (by decide) (by decide) (by decide)
    (by decide) (by decide) (by decide)).2.2

end GitCodereview
